import Mathlib

/-!
Verification of the wi-sense live Wi-Fi dashboard (src/main.py) against its
specification.  The Python code is shallowly embedded: floats are modelled as
rationals (ℚ), deques/lists as `List`, dicts as association lists, and the
fallible external command as an `Option` input.  String scanning is modelled
at the character-list level with structural recursion so that everything
evaluates inside the kernel.
-/

/-! ## Constants (src/main.py lines 10-33) -/

def SAMPLE_INTERVAL_SEC : ℚ := 1/2

def ROLLING_WINDOW_SEC : ℚ := 300

def DISPLAY_WINDOW_SEC : ℚ := 60

def MATERIAL_COLORS : List (String × String) :=
  [("baseline", "#f8f9fa"), ("wood", "#f4e4bc"), ("plastic", "#e3f2fd"),
   ("glass", "#f1f8e9"), ("aluminium", "#eceff1"), ("copper", "#fff3e0"),
   ("steel", "#fafafa")]

/-- `MATERIAL_COLORS.get(material, '#ffffff')` -/
def materialColor (m : String) : String :=
  match MATERIAL_COLORS.find? (fun p => p.1 == m) with
  | some p => p.2
  | none => "#ffffff"

/-! ## Metric parser (src/main.py `parse_wdutil_output`, lines 35-80)

Python string primitives are translated to structural recursions on
`List Char`. -/

/-- Python `s.split(c)` for a one-character separator. -/
def splitOnChar (c : Char) : List Char → List (List Char)
  | [] => [[]]
  | x :: xs =>
    if x = c then [] :: splitOnChar c xs
    else
      match splitOnChar c xs with
      | g :: gs => (x :: g) :: gs
      | [] => [[x]]

/-- Python `txt.splitlines()` (inputs only use `\n`): split on newlines,
with no trailing empty line. -/
def pySplitlines (txt : String) : List (List Char) :=
  let ls := splitOnChar '\n' txt.toList
  if ls.getLast? = some [] then ls.dropLast else ls

/-- Python `line.strip()`. -/
def pyStrip (cs : List Char) : List Char :=
  ((cs.dropWhile Char.isWhitespace).reverse.dropWhile Char.isWhitespace).reverse

/-- Python substring test `pat in s` (contiguous occurrence). -/
def containsSub (pat : List Char) : List Char → Bool
  | [] => pat.isEmpty
  | c :: cs => pat.isPrefixOf (c :: cs) || containsSub pat cs

/-- Python `s.isupper()`: at least one cased character and no lowercase
cased character (cased = letter for the ASCII inputs at hand). -/
def pyIsUpper (cs : List Char) : Bool :=
  cs.any (fun c => c.isAlpha) && cs.all (fun c => !c.isAlpha || c.isUpper)

/-- Numeric value of a digit run. -/
def digitsVal (cs : List Char) : Nat :=
  cs.foldl (fun n c => 10 * n + (c.toNat - 48)) 0

/-- Python `re.findall(r"[-]?\d+", s)[0]`: the leftmost match of an optional
minus sign followed by a maximal digit run, `none` when there is no match. -/
def firstSignedInt : List Char → Option Int
  | [] => none
  | c :: rest =>
    if c.isDigit then some (Int.ofNat (digitsVal ((c :: rest).takeWhile Char.isDigit)))
    else if c = '-' && (match rest with | r :: _ => r.isDigit | [] => false) then
      some (-(Int.ofNat (digitsVal (rest.takeWhile Char.isDigit))))
    else firstSignedInt rest

/-- `float(re.findall(r"[-]?\d+", line.split(":")[1].strip())[0])`:
the value extracted from a field line (`none` when the regex finds nothing,
i.e. the Python `IndexError` swallowed by `except: pass`). -/
def extractVal (line : List Char) : Option Int :=
  firstSignedInt (pyStrip ((splitOnChar ':' line).getD 1 []))

/-- The `————` separator marker (em-dashes) recognised by the parser. -/
def dashMarker : List Char := "————".toList

def wifiMarker : List Char := "WIFI".toList

/-- The section-exit test of lines 58-61: a nonempty all-caps line without a
colon that does not start with the dash marker. -/
def isSectionHeader (line : List Char) : Bool :=
  decide (0 < line.length) && !(dashMarker.isPrefixOf line) && pyIsUpper line &&
    !(containsSub (":".toList) line)

structure ScanState where
  rssi : Option Int
  noise : Option Int
  inWifi : Bool
deriving DecidableEq

def initScanState : ScanState := ⟨none, none, false⟩

/-- One iteration of the line loop in `parse_wdutil_output`. -/
def scanLine (st : ScanState) (rawLine : List Char) : ScanState :=
  let line := pyStrip rawLine
  if line = wifiMarker then { st with inWifi := true }
  else if dashMarker.isPrefixOf line && st.inWifi then st
  else if st.inWifi && isSectionHeader line then { st with inWifi := false }
  else if st.inWifi then
    if containsSub ("RSSI".toList) line && containsSub (":".toList) line then
      match extractVal line with
      | some v => { st with rssi := some v }
      | none => st
    else if containsSub ("Noise".toList) line && containsSub (":".toList) line then
      match extractVal line with
      | some v => { st with noise := some v }
      | none => st
    else st
  else st

def scanLines (st : ScanState) : List (List Char) → ScanState
  | [] => st
  | l :: ls => scanLines (scanLine st l) ls

/-- `parse_wdutil_output`: `none` models the raised `ValueError`. -/
def parse_wdutil_output (txt : String) : Option (Int × Int) :=
  let fin := scanLines initScanState (pySplitlines txt)
  match fin.rssi, fin.noise with
  | some r, some n => some (r, n)
  | _, _ => none

/-- The RSSI value (if any) that a single line loop iteration would store,
given the current section state: mirrors the branch structure of `scanLine`.
A capture can only occur with `st.inWifi = true`. -/
def rssiCapture (st : ScanState) (rawLine : List Char) : Option Int :=
  let line := pyStrip rawLine
  if line = wifiMarker then none
  else if dashMarker.isPrefixOf line && st.inWifi then none
  else if st.inWifi && isSectionHeader line then none
  else if st.inWifi && containsSub ("RSSI".toList) line && containsSub (":".toList) line then
    extractVal line
  else none

/-- Likewise for the Noise field (the `elif`: an RSSI line never captures
noise). -/
def noiseCapture (st : ScanState) (rawLine : List Char) : Option Int :=
  let line := pyStrip rawLine
  if line = wifiMarker then none
  else if dashMarker.isPrefixOf line && st.inWifi then none
  else if st.inWifi && isSectionHeader line then none
  else if st.inWifi && containsSub ("RSSI".toList) line && containsSub (":".toList) line then
    none
  else if st.inWifi && containsSub ("Noise".toList) line && containsSub (":".toList) line then
    extractVal line
  else none

/-- Some line of the document, processed in its section context, stores an
RSSI value: "the RSSI field is found within the WIFI sub-section". -/
def rssiFoundFrom : ScanState → List (List Char) → Prop
  | _, [] => False
  | st, l :: ls => (rssiCapture st l).isSome = true ∨ rssiFoundFrom (scanLine st l) ls

def noiseFoundFrom : ScanState → List (List Char) → Prop
  | _, [] => False
  | st, l :: ls => (noiseCapture st l).isSome = true ∨ noiseFoundFrom (scanLine st l) ls

def rssiFound (txt : String) : Prop := rssiFoundFrom initScanState (pySplitlines txt)

def noiseFound (txt : String) : Prop := noiseFoundFrom initScanState (pySplitlines txt)

/-- Spec reading of the extraction rule in claim C7: the first signed integer
anywhere after the first colon of the line (rather than Python's
`split(":")[1]`, which stops at the second colon). -/
def specFirstIntAfterColon (line : List Char) : Option Int :=
  firstSignedInt ((line.dropWhile (fun c => c ≠ ':')).drop 1)

/-- Amended reading of the extraction rule, matching the code: the first
signed integer after the first colon and before the second colon (Python's
`split(":")[1]`). -/
def specFirstIntBetweenColons (line : List Char) : Option Int :=
  firstSignedInt (pyStrip
    (((line.dropWhile (fun c => c ≠ ':')).drop 1).takeWhile (fun c => c ≠ ':')))

/-- Concrete parser input from the spec (section 8). -/
def sampleGoodText : String := "WIFI\nRSSI : -40 dBm\nNoise : -90 dBm\n"

/-- Concrete input with a WIFI section but no Noise line. -/
def sampleMissingNoiseText : String := "WIFI\nRSSI : -40 dBm\n"

/-! ## Live data store (src/main.py `LiveData`, lines 91-152) -/

/-- One record of `csv_rows`.  Python stores `datetime.fromtimestamp(ts)
.isoformat()`; the record keeps the underlying numeric timestamp. -/
structure CsvRow where
  timestamp : ℚ
  band : String
  material : String
  rssi_dbm : ℚ
  noise_dbm : ℚ
  snr_db : ℚ
deriving DecidableEq

structure LiveData where
  window_sec : ℚ
  times : List ℚ
  rssi : List ℚ
  noise : List ℚ
  snr : List ℚ
  snr_by_material : List (String × List ℚ)
  material_events : List ℚ
  current_material : String
  current_band : String
  csv_rows : List CsvRow
  material_transitions : List (ℚ × String)
deriving DecidableEq

/-- `LiveData.__init__` (the lock is concurrency plumbing, not state). -/
def livedata_init : LiveData :=
  { window_sec := ROLLING_WINDOW_SEC, times := [], rssi := [], noise := [],
    snr := [], snr_by_material := [], material_events := [],
    current_material := "baseline", current_band := "2.4", csv_rows := [],
    material_transitions := [] }

/-- `self.snr_by_material[self.current_material].append(snr)` on a
`defaultdict(list)`, as an association list in insertion order. -/
def addSnrByMaterial (m : List (String × List ℚ)) (mat : String) (v : ℚ) :
    List (String × List ℚ) :=
  match m with
  | [] => [(mat, [v])]
  | (k, vs) :: rest =>
    if k = mat then (k, vs ++ [v]) :: rest else (k, vs) :: addSnrByMaterial rest mat v

/-- `LiveData.append` (lines 104-121).  The eviction loop pops all four
deques in lockstep while the front timestamp is `< cutoff`; the number of
iterations is the length of that front run of `times`. -/
def LiveData.append (d : LiveData) (ts rssiV noiseV : ℚ) : LiveData :=
  let snrV := rssiV - noiseV
  let times' := d.times ++ [ts]
  let rssi' := d.rssi ++ [rssiV]
  let noise' := d.noise ++ [noiseV]
  let snr' := d.snr ++ [snrV]
  let cutoff := ts - d.window_sec
  let k := (times'.takeWhile (fun t => decide (t < cutoff))).length
  { d with
    times := times'.drop k, rssi := rssi'.drop k, noise := noise'.drop k,
    snr := snr'.drop k,
    material_transitions := d.material_transitions.filter (fun p => decide (cutoff ≤ p.1)),
    snr_by_material := addSnrByMaterial d.snr_by_material d.current_material snrV,
    csv_rows := d.csv_rows ++
      [⟨ts, d.current_band, d.current_material, rssiV, noiseV, snrV⟩] }

/-- `LiveData.set_material` (lines 123-126). -/
def LiveData.set_material (d : LiveData) (material : String) (timestamp : ℚ) : LiveData :=
  { d with
    current_material := material,
    material_transitions := d.material_transitions ++ [(timestamp, material)] }

/-- `LiveData.clear_data` (lines 128-147); `now` stands for
`datetime.datetime.now()` of the sentinel row. -/
def LiveData.clear_data (d : LiveData) (now : ℚ) : LiveData :=
  { d with
    times := [], rssi := [], noise := [], snr := [],
    snr_by_material := [], material_events := [], material_transitions := [],
    current_material := "baseline",
    csv_rows := d.csv_rows ++ [⟨now, d.current_band, "--- CLEARED ---", 0, 0, 0⟩] }

/-- The band toggle of the `'b'` key handler (line 530). -/
def LiveData.toggle_band (d : LiveData) : LiveData :=
  { d with current_band := if d.current_band = "2.4" then "5" else "2.4" }

/-- `LiveData.export_csv` (lines 149-152): writes the rows when nonempty,
mutating nothing; the result is the written content. -/
def LiveData.export_csv (d : LiveData) : Option (List CsvRow) :=
  if d.csv_rows = [] then none else some d.csv_rows

/-- Folding a sequence of `append` calls. -/
def appendAll (d : LiveData) (samples : List (ℚ × ℚ × ℚ)) : LiveData :=
  samples.foldl (fun d s => d.append s.1 s.2.1 s.2.2) d

/-- The samples the spec says the Live Series retains: those whose timestamp
is at least `latest - retention_window`. -/
def retainedSamples (samples : List (ℚ × ℚ × ℚ)) (latest : ℚ) : List (ℚ × ℚ × ℚ) :=
  samples.filter (fun s => decide (latest - ROLLING_WINDOW_SEC ≤ s.1))

/-- States of the store produced by its operations from the initial state. -/
inductive Reachable : LiveData → Prop
  | init : Reachable livedata_init
  | append {d} (ts rssiV noiseV : ℚ) : Reachable d → Reachable (d.append ts rssiV noiseV)
  | set_material {d} (material : String) (timestamp : ℚ) :
      Reachable d → Reachable (d.set_material material timestamp)
  | clear_data {d} (now : ℚ) : Reachable d → Reachable (d.clear_data now)
  | toggle_band {d} : Reachable d → Reachable d.toggle_band

/-- The four series deques are projections of one list of
(timestamp, rssi, noise) samples, with SNR derived as their difference. -/
def SeriesInv (d : LiveData) : Prop :=
  ∃ K : List (ℚ × ℚ × ℚ),
    d.times = K.map (·.1) ∧ d.rssi = K.map (·.2.1) ∧ d.noise = K.map (·.2.2) ∧
    d.snr = K.map (fun q => q.2.1 - q.2.2)

/-! ## Sampling tick (src/main.py `update`, lines 578-589)

The external `read_wifi_metrics_macos` call is modelled as an `Option`
argument: `none` is a raised acquisition/parse exception. -/

def update (is_stats_view : Bool) (d : LiveData) (ts : ℚ) (metrics : Option (ℚ × ℚ)) :
    LiveData :=
  if is_stats_view then d
  else
    match metrics with
    | none => d
    | some (rssiV, noiseV) => d.append ts rssiV noiseV

/-! ## Viewport zoom (src/main.py `on_scroll` lines 288-316,
`on_key_press` lines 318-362)

The viewport is the pair `(xleft, xright)` of `ax.get_xlim()`.  The float
factors 1.2, 1/1.2, 0.8 and 1.25 are modelled as the exact rationals 6/5,
5/6, 4/5 and 5/4. -/

inductive NavAction where
  | scroll (buttonDown : Bool) (xdata : Option ℚ)
  | keyUp
  | keyDown
deriving DecidableEq

def applyNav (vp : ℚ × ℚ) (a : NavAction) : ℚ × ℚ :=
  match a with
  | .scroll buttonDown xdata =>
    let xleft := vp.1
    let xright := vp.2
    let current_width := xright - xleft
    let zoom_factor : ℚ := if buttonDown then 6/5 else 5/6
    let new_width := max 10 (min (current_width * zoom_factor) ROLLING_WINDOW_SEC)
    let xd := match xdata with
      | none => (xleft + xright) / 2
      | some x => if x = 0 then (xleft + xright) / 2 else x
    let new_xleft := xd - new_width * (xd - xleft) / current_width
    (new_xleft, new_xleft + new_width)
  | .keyUp =>
    let width := vp.2 - vp.1
    let center := (vp.1 + vp.2) / 2
    let new_width := width * (4/5)
    (center - new_width / 2, center + new_width / 2)
  | .keyDown =>
    let width := vp.2 - vp.1
    let center := (vp.1 + vp.2) / 2
    let new_width := min (width * (5/4)) ROLLING_WINDOW_SEC
    (center - new_width / 2, center + new_width / 2)

def viewportWidth (vp : ℚ × ℚ) : ℚ := vp.2 - vp.1

/-! ## Background shading (src/main.py `update_background_colors`,
lines 464-518) -/

def listMin (x : ℚ) (xs : List ℚ) : ℚ := xs.foldl min x

def listMax (x : ℚ) (xs : List ℚ) : ℚ := xs.foldl max x

/-- Python tuple `<` on `(float, str)` pairs. -/
def pyPairLt (a b : ℚ × String) : Bool :=
  decide (a.1 < b.1) || (decide (a.1 = b.1) && decide (a.2 < b.2))

/-- Stable insertion placing `a` after strictly smaller elements. -/
def sortInsert (a : ℚ × String) : List (ℚ × String) → List (ℚ × String)
  | [] => [a]
  | b :: bs => if pyPairLt b a then b :: sortInsert a bs else a :: b :: bs

/-- Python `sorted` on a list of `(float, str)` tuples. -/
def pySorted (l : List (ℚ × String)) : List (ℚ × String) := l.foldr sortInsert []

/-- The patch-emitting loop (lines 502-518): each emitted triple is an
`axvspan(prev_x, x_pos)` coloured for the material active before `x_pos`,
with the final section closed at `current_x_max`. -/
def bgFold (prev_x : ℚ) (prev_material : String) (xmax : ℚ) :
    List (ℚ × String) → List (ℚ × ℚ × String)
  | [] => if prev_x < xmax then [(prev_x, xmax, materialColor prev_material)] else []
  | (x, m) :: rest =>
    (if prev_x < x then [(prev_x, x, materialColor prev_material)] else []) ++
      bgFold x m xmax rest

/-- The background patches drawn by `update_background_colors`, given the
sample times, the session start, the transition list and the current
material (empty when the code only resets the facecolor). -/
def update_background_colors (times : List ℚ) (start : ℚ)
    (material_transitions : List (ℚ × String)) (current_material : String) :
    List (ℚ × ℚ × String) :=
  match times with
  | [] => []
  | t0 :: trest =>
    if material_transitions = [] then []
    else
      let start_time := listMin t0 trest
      let end_time := listMax t0 trest
      let current_x_min := listMin (t0 - start) (trest.map (· - start))
      let current_x_max := listMax (t0 - start) (trest.map (· - start))
      let transitions := pySorted
        ((material_transitions.filter
            (fun p => decide (start_time ≤ p.1) && decide (p.1 ≤ end_time))).map
          (fun p => (p.1 - start, p.2)))
      let transitions :=
        if transitions = [] ∨ (transitions.getLast?.map (·.2)) ≠ some current_material then
          transitions ++ [(current_x_max, current_material)]
        else transitions
      let prev_material := match transitions.head? with
        | some p => p.2
        | none => "baseline"
      bgFold current_x_min prev_material current_x_max transitions

/-! ## General list lemmas used by the proofs -/

theorem list_drop_length_takeWhile {α} (p : α → Bool) :
    ∀ l : List α, l.drop (l.takeWhile p).length = l.dropWhile p
  | [] => rfl
  | a :: l => by
    by_cases h : p a
    · simp [List.takeWhile_cons, List.dropWhile_cons, h, list_drop_length_takeWhile p l]
    · simp [List.takeWhile_cons, List.dropWhile_cons, h]

theorem list_dropWhile_eq_filter_of_pairwise {α} (f : α → ℚ) (c : ℚ) :
    ∀ l : List α, l.Pairwise (fun a b => f a < f b) →
      l.dropWhile (fun a => decide (f a < c)) = l.filter (fun a => decide (c ≤ f a))
  | [], _ => rfl
  | a :: l, hp => by
    rcases List.pairwise_cons.mp hp with ⟨ha, hl⟩
    by_cases h : f a < c
    · have hc : ¬ c ≤ f a := not_le.mpr h
      simp [List.dropWhile_cons, List.filter_cons, h, hc,
        list_dropWhile_eq_filter_of_pairwise f c l hl]
    · have hc : c ≤ f a := not_lt.mp h
      have hrest : l.filter (fun b => decide (c ≤ f b)) = l :=
        List.filter_eq_self.mpr fun b hb => decide_eq_true (le_trans hc (le_of_lt (ha b hb)))
      simp [List.dropWhile_cons, List.filter_cons, h, hc, hrest]

/-! ## Theorems for the claims -/

/-- C3: `clear_data` empties the Live Series, the Transition list, the
material-events list and the per-material SNR accumulators, resets the
material to "baseline", preserves the band, and appends exactly one sentinel
record to the Export Log, leaving the pre-existing records unchanged. -/
theorem clear_data_spec (d : LiveData) (now : ℚ) :
    (d.clear_data now).times = [] ∧ (d.clear_data now).rssi = [] ∧
    (d.clear_data now).noise = [] ∧ (d.clear_data now).snr = [] ∧
    (d.clear_data now).material_transitions = [] ∧
    (d.clear_data now).material_events = [] ∧
    (d.clear_data now).snr_by_material = [] ∧
    (d.clear_data now).current_material = "baseline" ∧
    (d.clear_data now).current_band = d.current_band ∧
    (d.clear_data now).csv_rows =
      d.csv_rows ++ [⟨now, d.current_band, "--- CLEARED ---", 0, 0, 0⟩] :=
  ⟨rfl, rfl, rfl, rfl, rfl, rfl, rfl, rfl, rfl, rfl⟩

/-- C9: when metric acquisition or parsing raises (modelled as `none`), the
tick leaves the whole Live Data Store unchanged; no sample is recorded. -/
theorem update_skips_failed_tick (is_stats_view : Bool) (d : LiveData) (ts : ℚ) :
    update is_stats_view d ts none = d := by
  cases is_stats_view <;> rfl

/-- C4 counterexample: the starting viewport `(0, 12)` has width 12, inside
`[10, retention_window]`, yet a single up-arrow zoom (width ×0.8, no lower
clamp in `on_key_press`) yields width 48/5 < 10. -/
theorem zoom_width_counterexample :
    (10 ≤ viewportWidth (0, 12) ∧ viewportWidth (0, 12) ≤ ROLLING_WINDOW_SEC) ∧
    viewportWidth (applyNav (0, 12) NavAction.keyUp) < 10 := by
  norm_num [viewportWidth, applyNav, ROLLING_WINDOW_SEC]

theorem width_of_pair (a w : ℚ) : viewportWidth (a, a + w) = w := by
  simp [viewportWidth]

theorem scroll_width_bounds (vp : ℚ × ℚ) (b : Bool) (x : Option ℚ) :
    10 ≤ viewportWidth (applyNav vp (.scroll b x)) ∧
      viewportWidth (applyNav vp (.scroll b x)) ≤ ROLLING_WINDOW_SEC := by
  have h300 : (10 : ℚ) ≤ ROLLING_WINDOW_SEC := by norm_num [ROLLING_WINDOW_SEC]
  have hw : viewportWidth (applyNav vp (.scroll b x)) =
      max 10 (min ((vp.2 - vp.1) * (if b then (6/5 : ℚ) else 5/6)) ROLLING_WINDOW_SEC) := by
    simp only [applyNav]
    rw [width_of_pair]
  rw [hw]
  exact ⟨le_max_left _ _, max_le h300 (min_le_right _ _)⟩

theorem scroll_fold_bounds (acts : List (Bool × Option ℚ)) :
    ∀ vp : ℚ × ℚ,
      10 ≤ viewportWidth vp → viewportWidth vp ≤ ROLLING_WINDOW_SEC →
      10 ≤ viewportWidth (acts.foldl (fun v a => applyNav v (.scroll a.1 a.2)) vp) ∧
        viewportWidth (acts.foldl (fun v a => applyNav v (.scroll a.1 a.2)) vp) ≤
          ROLLING_WINDOW_SEC := by
  induction acts with
  | nil => exact fun vp h1 h2 => ⟨h1, h2⟩
  | cons a as ih =>
    intro vp _ _
    have hb := scroll_width_bounds vp a.1 a.2
    simpa [List.foldl_cons] using ih (applyNav vp (.scroll a.1 a.2)) hb.1 hb.2

/-- C4 amended: after any nonempty sequence of mouse-scroll zoom actions the
viewport width lies in `[10, retention_window]`; the arrow-key zooms of
`on_key_press` do not clamp the lower bound (see the counterexample). -/
theorem scroll_zoom_width_invariant (vp : ℚ × ℚ) (acts : List (Bool × Option ℚ))
    (h : acts ≠ []) :
    10 ≤ viewportWidth (acts.foldl (fun v a => applyNav v (.scroll a.1 a.2)) vp) ∧
      viewportWidth (acts.foldl (fun v a => applyNav v (.scroll a.1 a.2)) vp) ≤
        ROLLING_WINDOW_SEC := by
  match acts, h with
  | a :: as, _ =>
    have hb := scroll_width_bounds vp a.1 a.2
    simpa [List.foldl_cons] using scroll_fold_bounds as (applyNav vp (.scroll a.1 a.2)) hb.1 hb.2

theorem scroll_zoom_width_invariant_witness :
    10 ≤ viewportWidth ([((true : Bool), (none : Option ℚ))].foldl
        (fun v a => applyNav v (.scroll a.1 a.2)) (0, 60)) ∧
      viewportWidth ([((true : Bool), (none : Option ℚ))].foldl
        (fun v a => applyNav v (.scroll a.1 a.2)) (0, 60)) ≤ ROLLING_WINDOW_SEC :=
  scroll_zoom_width_invariant (0, 60) [(true, none)] (by simp)

/-- C5: replaying the transition list `[(10, "wood"), (25, "glass")]` with
samples spanning `[0, 30]`, session start 0 and current material "glass"
shades `[0,10)` with the first transition's material (wood), `[10,25)` with
wood and `[25,30]` with glass. -/
theorem background_replay_example :
    update_background_colors [0, 30] 0 [(10, "wood"), (25, "glass")] "glass" =
      [(0, 10, materialColor "wood"), (10, 25, materialColor "wood"),
       (25, 30, materialColor "glass")] := by
  norm_num [update_background_colors, listMin, listMax, pySorted, sortInsert,
    pyPairLt, bgFold, materialColor, MATERIAL_COLORS, List.find?]
  decide

/-! ## Parser theorems (C6, C7, C8) -/

theorem scanLine_rssi (st : ScanState) (l : List Char) :
    (scanLine st l).rssi = (rssiCapture st l).or st.rssi := by
  unfold scanLine rssiCapture
  cases he : extractVal (pyStrip l) <;> split_ifs <;> simp_all [Option.or] <;>
    split_ifs <;> simp_all

theorem scanLine_noise (st : ScanState) (l : List Char) :
    (scanLine st l).noise = (noiseCapture st l).or st.noise := by
  unfold scanLine noiseCapture
  cases he : extractVal (pyStrip l) <;> split_ifs <;> simp_all [Option.or] <;>
    split_ifs <;> simp_all

theorem scanLines_rssi_none (ls : List (List Char)) :
    ∀ st : ScanState,
      ((scanLines st ls).rssi = none ↔ st.rssi = none ∧ ¬ rssiFoundFrom st ls) := by
  induction ls with
  | nil => intro st; simp [scanLines, rssiFoundFrom]
  | cons l ls ih =>
    intro st
    rw [scanLines, rssiFoundFrom, ih (scanLine st l), scanLine_rssi]
    cases h : rssiCapture st l <;> simp [h, Option.or]

theorem scanLines_noise_none (ls : List (List Char)) :
    ∀ st : ScanState,
      ((scanLines st ls).noise = none ↔ st.noise = none ∧ ¬ noiseFoundFrom st ls) := by
  induction ls with
  | nil => intro st; simp [scanLines, noiseFoundFrom]
  | cons l ls ih =>
    intro st
    rw [scanLines, noiseFoundFrom, ih (scanLine st l), scanLine_noise]
    cases h : noiseCapture st l <;> simp [h, Option.or]

/-- C6: the parser reports a parse error exactly when at least one of the
two fields is never captured inside the WIFI sub-section; in particular a
text with a WIFI section but no Noise line parses to an error. -/
theorem parse_error_iff_field_missing :
    (∀ txt : String,
        parse_wdutil_output txt = none ↔ (¬ rssiFound txt ∨ ¬ noiseFound txt)) ∧
    parse_wdutil_output sampleMissingNoiseText = none := by
  constructor
  · intro txt
    have hr := scanLines_rssi_none (pySplitlines txt) initScanState
    have hn := scanLines_noise_none (pySplitlines txt) initScanState
    simp only [initScanState] at hr hn
    unfold parse_wdutil_output rssiFound noiseFound
    rcases h1 : (scanLines initScanState (pySplitlines txt)).rssi with _ | r <;>
      rcases h2 : (scanLines initScanState (pySplitlines txt)).noise with _ | n <;>
        simp_all [initScanState]
  · decide

/-- C7 counterexample: on the WIFI-section line `RSSI : a : -40` the first
signed integer after a colon is -40, yet the parser (which only looks
between the first and second colon) captures nothing and errors out. -/
theorem colon_extraction_counterexample :
    specFirstIntAfterColon ("RSSI : a : -40".toList) = some (-40) ∧
    parse_wdutil_output "WIFI\nRSSI : a : -40\nNoise : -90 dBm\n" = none := by
  constructor <;> decide

theorem splitOnChar_ne_nil (c : Char) : ∀ cs : List Char, splitOnChar c cs ≠ []
  | [] => by simp [splitOnChar]
  | x :: xs => by
    unfold splitOnChar
    by_cases h : x = c
    · simp [h]
    · simp only [h, if_false]
      cases hs : splitOnChar c xs <;> simp

theorem splitOnChar_getD_zero (c : Char) :
    ∀ cs : List Char, (splitOnChar c cs).getD 0 [] = cs.takeWhile (fun x => x ≠ c)
  | [] => rfl
  | x :: xs => by
    unfold splitOnChar
    by_cases h : x = c
    · simp [h, List.takeWhile_cons]
    · cases hs : splitOnChar c xs with
      | nil => exact absurd hs (splitOnChar_ne_nil c xs)
      | cons g gs =>
        have := splitOnChar_getD_zero c xs
        rw [hs] at this
        simp_all [List.takeWhile_cons, h]

theorem splitOnChar_getD_one (cs : List Char) (h : cs.contains ':' = true) :
    (splitOnChar ':' cs).getD 1 [] =
      ((cs.dropWhile (fun c => c ≠ ':')).drop 1).takeWhile (fun c => c ≠ ':') := by
  induction cs with
  | nil => simp at h
  | cons x xs ih =>
    by_cases hx : x = ':'
    · subst hx
      unfold splitOnChar
      simp only [if_true, List.dropWhile_cons]
      have h0 := splitOnChar_getD_zero ':' xs
      simp_all
    · have hxs : xs.contains ':' = true := by
        simp [List.contains_cons] at h
        rcases h with h | h
        · exact absurd h.symm hx
        · simpa using h
      unfold splitOnChar
      simp only [hx, if_false]
      cases hs : splitOnChar ':' xs with
      | nil => exact absurd hs (splitOnChar_ne_nil ':' xs)
      | cons g gs =>
        have := ih hxs
        rw [hs] at this
        simp_all [List.dropWhile_cons, hx]

/-- C7 amended: on a field line the parser extracts the first signed integer
occurring after the first colon and before any second colon; the spec's
concrete example parses to (-40, -90). -/
theorem colon_extraction_amended :
    (∀ line : List Char, line.contains ':' = true →
        extractVal line = specFirstIntBetweenColons line) ∧
    parse_wdutil_output sampleGoodText = some (-40, -90) := by
  constructor
  · intro line h
    unfold extractVal specFirstIntBetweenColons
    rw [splitOnChar_getD_one line h]
  · decide

theorem colon_extraction_amended_witness :
    extractVal ("RSSI : -40 dBm".toList) =
      specFirstIntBetweenColons ("RSSI : -40 dBm".toList) ∧
    parse_wdutil_output sampleGoodText = some (-40, -90) :=
  ⟨colon_extraction_amended.1 ("RSSI : -40 dBm".toList) (by decide),
   colon_extraction_amended.2⟩

theorem scanLine_outside_wifi (st : ScanState) (l : List Char)
    (hw : st.inWifi = false) (hl : pyStrip l ≠ wifiMarker) : scanLine st l = st := by
  unfold scanLine
  simp [hl, hw]

/-- C8: while the scanner is outside the WIFI sub-section (before a `WIFI`
marker line, or after an all-caps section header such as `BLUETOOTH` ended
the section by resetting the in-WIFI flag), no RSSI or Noise value is ever
captured from the lines processed there. -/
theorem parser_ignores_outside_wifi :
    (∀ (st : ScanState) (ls : List (List Char)), st.inWifi = false →
        (∀ l ∈ ls, pyStrip l ≠ wifiMarker) → scanLines st ls = st) ∧
    (∀ (st : ScanState) (l : List Char), pyStrip l ≠ wifiMarker →
        isSectionHeader (pyStrip l) = true →
        (scanLine st l).inWifi = false ∧ (scanLine st l).rssi = st.rssi ∧
          (scanLine st l).noise = st.noise) := by
  constructor
  · intro st ls
    induction ls generalizing st with
    | nil => intro _ _; rfl
    | cons l ls ih =>
      intro hw hall
      rw [scanLines, scanLine_outside_wifi st l hw (hall l (by simp))]
      exact ih st hw (fun x hx => hall x (by simp [hx]))
  · intro st l hne hh
    have hdash : ¬ (dashMarker.isPrefixOf (pyStrip l) = true) := by
      simp only [isSectionHeader, Bool.and_eq_true, Bool.not_eq_true'] at hh
      simp [hh.1.1.2]
    unfold scanLine
    cases hw : st.inWifi <;> simp [hne, hh, hdash, hw]

theorem parser_ignores_outside_wifi_witness :
    scanLines initScanState ["BLUETOOTH".toList, "RSSI : -5 dBm".toList] = initScanState ∧
    (scanLine ⟨none, none, true⟩ ("BLUETOOTH".toList)).inWifi = false ∧
    (scanLine ⟨none, none, true⟩ ("BLUETOOTH".toList)).rssi =
      (⟨none, none, true⟩ : ScanState).rssi ∧
    (scanLine ⟨none, none, true⟩ ("BLUETOOTH".toList)).noise =
      (⟨none, none, true⟩ : ScanState).noise :=
  ⟨parser_ignores_outside_wifi.1 initScanState
      ["BLUETOOTH".toList, "RSSI : -5 dBm".toList] (by decide) (by decide),
   parser_ignores_outside_wifi.2 ⟨none, none, true⟩ ("BLUETOOTH".toList)
     (by decide) (by decide)⟩

/-! ## Live data store theorems (C1, C2, C10) -/

theorem appendAll_window (xs : List (ℚ × ℚ × ℚ)) :
    ∀ d : LiveData, (appendAll d xs).window_sec = d.window_sec := by
  induction xs with
  | nil => intro d; rfl
  | cons s xs ih =>
    intro d
    simpa [appendAll, List.foldl_cons] using ih (d.append s.1 s.2.1 s.2.2)

theorem append_on_series (d : LiveData) (K : List (ℚ × ℚ × ℚ)) (ts r n : ℚ)
    (h1 : d.times = K.map (·.1)) (h2 : d.rssi = K.map (·.2.1))
    (h3 : d.noise = K.map (·.2.2)) (h4 : d.snr = K.map (fun q => q.2.1 - q.2.2)) :
    (d.append ts r n).times =
      ((K ++ [(ts, r, n)]).drop (((K ++ [(ts, r, n)]).takeWhile
        (fun q => decide (q.1 < ts - d.window_sec))).length)).map (·.1) ∧
    (d.append ts r n).rssi =
      ((K ++ [(ts, r, n)]).drop (((K ++ [(ts, r, n)]).takeWhile
        (fun q => decide (q.1 < ts - d.window_sec))).length)).map (·.2.1) ∧
    (d.append ts r n).noise =
      ((K ++ [(ts, r, n)]).drop (((K ++ [(ts, r, n)]).takeWhile
        (fun q => decide (q.1 < ts - d.window_sec))).length)).map (·.2.2) ∧
    (d.append ts r n).snr =
      ((K ++ [(ts, r, n)]).drop (((K ++ [(ts, r, n)]).takeWhile
        (fun q => decide (q.1 < ts - d.window_sec))).length)).map
        (fun q => q.2.1 - q.2.2) := by
  have hmapp1 : K.map (·.1) ++ [ts] = (K ++ [(ts, r, n)]).map (·.1) := by simp
  have hmapp2 : K.map (·.2.1) ++ [r] = (K ++ [(ts, r, n)]).map (·.2.1) := by simp
  have hmapp3 : K.map (·.2.2) ++ [n] = (K ++ [(ts, r, n)]).map (·.2.2) := by simp
  have hmapp4 : K.map (fun q => q.2.1 - q.2.2) ++ [r - n] =
      (K ++ [(ts, r, n)]).map (fun q => q.2.1 - q.2.2) := by simp
  simp only [LiveData.append, h1, h2, h3, h4]
  rw [hmapp1, hmapp2, hmapp3, hmapp4, List.takeWhile_map, List.length_map]
  refine ⟨?_, ?_, ?_, ?_⟩ <;> rw [List.map_drop] <;> rfl

theorem reachable_invariants (d : LiveData) (h : Reachable d) :
    SeriesInv d ∧ ∀ row ∈ d.csv_rows, row.snr_db = row.rssi_dbm - row.noise_dbm := by
  induction h with
  | init => exact ⟨⟨[], rfl, rfl, rfl, rfl⟩, by simp [livedata_init]⟩
  | append ts rssiV noiseV hd ih =>
    obtain ⟨⟨K, h1, h2, h3, h4⟩, hcsv⟩ := ih
    have h := append_on_series _ K ts rssiV noiseV h1 h2 h3 h4
    refine ⟨⟨_, h.1, h.2.1, h.2.2.1, h.2.2.2⟩, ?_⟩
    intro row hrow
    rcases List.mem_append.mp hrow with hm | hm
    · exact hcsv row hm
    · simp only [List.mem_singleton] at hm
      subst hm
      rfl
  | set_material material timestamp hd ih => exact ih
  | clear_data now hd ih =>
    refine ⟨⟨[], rfl, rfl, rfl, rfl⟩, ?_⟩
    intro row hrow
    rcases List.mem_append.mp hrow with hm | hm
    · exact ih.2 row hm
    · simp only [List.mem_singleton] at hm
      subst hm
      norm_num
  | toggle_band hd ih => exact ih

/-- C2: in every reachable store state, each retained SNR entry is exactly
the pointwise difference of the RSSI and Noise entries, and every Export Log
record (the sentinel rows included) satisfies `snr_db = rssi_dbm -
noise_dbm`. -/
theorem snr_is_signal_minus_noise (d : LiveData) (h : Reachable d) :
    d.snr = List.zipWith (fun a b => a - b) d.rssi d.noise ∧
    ∀ row ∈ d.csv_rows, row.snr_db = row.rssi_dbm - row.noise_dbm := by
  obtain ⟨⟨K, h1, h2, h3, h4⟩, hcsv⟩ := reachable_invariants d h
  refine ⟨?_, hcsv⟩
  rw [h2, h3, h4, List.zipWith_map, List.zipWith_same]

theorem snr_is_signal_minus_noise_witness :
    (livedata_init.append 1 2 3).snr =
      List.zipWith (fun a b => a - b) (livedata_init.append 1 2 3).rssi
        (livedata_init.append 1 2 3).noise ∧
    ∀ row ∈ (livedata_init.append 1 2 3).csv_rows,
      row.snr_db = row.rssi_dbm - row.noise_dbm :=
  snr_is_signal_minus_noise _ (Reachable.append 1 2 3 Reachable.init)

/-- C10: every reachable store state keeps the four series deques at equal
length, and an `append` always leaves the Live Series nonempty, because the
eviction cutoff `ts - window` never exceeds the newly appended timestamp
when the window is nonnegative (it is 300 in the program). -/
theorem deque_lengths_equal_and_append_nonempty :
    (∀ d : LiveData, Reachable d →
        d.rssi.length = d.times.length ∧ d.noise.length = d.times.length ∧
          d.snr.length = d.times.length) ∧
    (∀ (d : LiveData) (ts rssiV noiseV : ℚ), 0 ≤ d.window_sec →
        (d.append ts rssiV noiseV).times ≠ []) := by
  constructor
  · intro d h
    obtain ⟨⟨K, h1, h2, h3, h4⟩, -⟩ := reachable_invariants d h
    simp [h1, h2, h3, h4]
  · intro d ts rv nv hw hnil
    simp only [LiveData.append] at hnil
    rw [List.drop_eq_nil_iff] at hnil
    have hpre := List.takeWhile_prefix
      (l := d.times ++ [ts]) (fun t => decide (t < ts - d.window_sec))
    have hlen := hpre.length_le
    have heq : (d.times ++ [ts]).takeWhile (fun t => decide (t < ts - d.window_sec)) =
        d.times ++ [ts] := hpre.eq_of_length (le_antisymm hlen hnil)
    have hts : ts ∈ (d.times ++ [ts]).takeWhile (fun t => decide (t < ts - d.window_sec)) := by
      rw [heq]
      exact List.mem_append_right _ (by simp)
    have := List.mem_takeWhile_imp hts
    simp only [decide_eq_true_eq] at this
    linarith

theorem deque_lengths_equal_and_append_nonempty_witness :
    ((livedata_init.append 1 2 3).rssi.length = (livedata_init.append 1 2 3).times.length ∧
      (livedata_init.append 1 2 3).noise.length = (livedata_init.append 1 2 3).times.length ∧
      (livedata_init.append 1 2 3).snr.length = (livedata_init.append 1 2 3).times.length) ∧
    (livedata_init.append 1 2 3).times ≠ [] :=
  ⟨deque_lengths_equal_and_append_nonempty.1 _ (Reachable.append 1 2 3 Reachable.init),
   deque_lengths_equal_and_append_nonempty.2 livedata_init 1 2 3
     (by norm_num [livedata_init, ROLLING_WINDOW_SEC])⟩

/-- C1: for every sequence of `append` calls with strictly increasing
timestamps, starting from the initial store, the four series deques contain
exactly the samples whose timestamp is at least `latest - retention_window`,
in increasing timestamp order. -/
theorem live_series_retention (samples : List (ℚ × ℚ × ℚ)) (xlast : ℚ × ℚ × ℚ)
    (hlast : samples.getLast? = some xlast)
    (hinc : List.Chain' (· < ·) (samples.map (·.1))) :
    (appendAll livedata_init samples).times =
      (retainedSamples samples xlast.1).map (·.1) ∧
    (appendAll livedata_init samples).rssi =
      (retainedSamples samples xlast.1).map (·.2.1) ∧
    (appendAll livedata_init samples).noise =
      (retainedSamples samples xlast.1).map (·.2.2) ∧
    (appendAll livedata_init samples).snr =
      (retainedSamples samples xlast.1).map (fun q => q.2.1 - q.2.2) ∧
    List.Chain' (· < ·) (appendAll livedata_init samples).times := by
  induction samples using List.reverseRecOn generalizing xlast with
  | nil => simp at hlast
  | append_singleton xs x ih =>
    have hx : xlast = x := by
      rw [List.getLast?_concat] at hlast
      exact (Option.some_inj.mp hlast).symm
    obtain ⟨t, r, n⟩ := x
    subst hx
    have h300 : (0:ℚ) ≤ ROLLING_WINDOW_SEC := by norm_num [ROLLING_WINDOW_SEC]
    rcases eq_or_ne xs [] with hxs | hxs
    · subst hxs
      simp only [List.nil_append]
      have happ : appendAll livedata_init [(t, r, n)] = livedata_init.append t r n := by
        simp [appendAll]
      have h := append_on_series livedata_init [] t r n rfl rfl rfl rfl
      simp only [List.nil_append] at h
      have htw : ([((t : ℚ), (r : ℚ), (n : ℚ))].takeWhile
          (fun q => decide (q.1 < t - livedata_init.window_sec))) = [] := by
        have hp : ¬ ((t, r, n).1 < t - livedata_init.window_sec) := by
          show ¬ (t < t - livedata_init.window_sec)
          have : livedata_init.window_sec = ROLLING_WINDOW_SEC := rfl
          rw [this]
          intro hcon
          linarith
        simp [List.takeWhile_cons, hp]
      have hret : retainedSamples [(t, r, n)] (t, r, n).1 = [(t, r, n)] := by
        unfold retainedSamples
        have : t - ROLLING_WINDOW_SEC ≤ (t, r, n).1 := by
          show t - ROLLING_WINDOW_SEC ≤ t
          linarith
        simp [List.filter_cons, this, h300]
      rw [htw] at h
      simp only [List.length_nil, List.drop_zero] at h
      refine ⟨?_, ?_, ?_, ?_, ?_⟩
      · rw [happ, h.1, hret]
      · rw [happ, h.2.1, hret]
      · rw [happ, h.2.2.1, hret]
      · rw [happ, h.2.2.2, hret]
      · rw [happ, h.1]
        simp
    · have hxlast : xs.getLast? = some (xs.getLast hxs) := List.getLast?_eq_getLast xs hxs
      have hpw : (xs.map (·.1) ++ [t]).Pairwise (· < ·) := by
        have h0 := hinc
        rw [show (xs ++ [((t : ℚ), (r : ℚ), (n : ℚ))]).map (·.1) = xs.map (·.1) ++ [t]
          by simp] at h0
        exact List.chain'_iff_pairwise.mp h0
      obtain ⟨hpw_xs, -, hcross⟩ := List.pairwise_append.mp hpw
      have hlt_all : ∀ s ∈ xs, s.1 < t := fun s hs =>
        hcross s.1 (List.mem_map_of_mem _ hs) t (by simp)
      have hxs_chain : List.Chain' (· < ·) (xs.map (·.1)) := List.chain'_iff_pairwise.mpr hpw_xs
      obtain ⟨ih1, ih2, ih3, ih4, ih5⟩ := ih (xs.getLast hxs) hxlast hxs_chain
      set d := appendAll livedata_init xs with hd
      set latestL := (xs.getLast hxs).1 with hlatestL
      set KL := retainedSamples xs latestL with hKL
      have hwin : d.window_sec = ROLLING_WINDOW_SEC := by
        rw [hd]
        exact (appendAll_window xs livedata_init).trans rfl
      have happ : appendAll livedata_init (xs ++ [(t, r, n)]) = d.append t r n := by
        rw [hd]
        simp [appendAll, List.foldl_append]
      have h := append_on_series d KL t r n ih1 ih2 ih3 ih4
      rw [hwin] at h
      have hpw_L : (KL ++ [((t : ℚ), (r : ℚ), (n : ℚ))]).Pairwise (fun a b => a.1 < b.1) := by
        refine List.pairwise_append.mpr ⟨?_, by simp, ?_⟩
        · exact ((List.pairwise_map).mp hpw_xs).filter _
        · intro a ha b hb
          simp only [List.mem_singleton] at hb
          subst hb
          exact hlt_all a (List.mem_of_mem_filter ha)
      have hdrop : (KL ++ [((t : ℚ), (r : ℚ), (n : ℚ))]).drop
          (((KL ++ [((t : ℚ), (r : ℚ), (n : ℚ))]).takeWhile
            (fun q => decide (q.1 < t - ROLLING_WINDOW_SEC))).length) =
          (KL ++ [(t, r, n)]).filter (fun q => decide (t - ROLLING_WINDOW_SEC ≤ q.1)) := by
        rw [list_drop_length_takeWhile, list_dropWhile_eq_filter_of_pairwise _ _ _ hpw_L]
      have hlatest_lt : latestL < t := hlt_all _ (List.getLast_mem hxs)
      have hfilter : (KL ++ [((t : ℚ), (r : ℚ), (n : ℚ))]).filter
          (fun q => decide (t - ROLLING_WINDOW_SEC ≤ q.1)) =
          retainedSamples (xs ++ [(t, r, n)]) (t, r, n).1 := by
        rw [hKL]
        unfold retainedSamples
        rw [List.filter_append, List.filter_append, List.filter_filter]
        congr 1
        refine List.filter_congr fun s hs => ?_
        by_cases hc : t - ROLLING_WINDOW_SEC ≤ s.1
        · have h2 : latestL - ROLLING_WINDOW_SEC ≤ s.1 := by linarith
          simp [hc, h2]
        · simp [hc]
      refine ⟨?_, ?_, ?_, ?_, ?_⟩
      · rw [happ, h.1, hdrop, hfilter]
      · rw [happ, h.2.1, hdrop, hfilter]
      · rw [happ, h.2.2.1, hdrop, hfilter]
      · rw [happ, h.2.2.2, hdrop, hfilter]
      · rw [happ, h.1, hdrop, hfilter]
        refine List.chain'_iff_pairwise.mpr ((List.pairwise_map).mpr ?_)
        have hpw_all : (xs ++ [((t : ℚ), (r : ℚ), (n : ℚ))]).Pairwise
            (fun a b => a.1 < b.1) := by
          refine (List.pairwise_map).mp ?_
          rw [show (xs ++ [((t : ℚ), (r : ℚ), (n : ℚ))]).map (·.1) = xs.map (·.1) ++ [t]
            by simp]
          exact hpw
        exact hpw_all.filter _

theorem live_series_retention_witness :
    (appendAll livedata_init [((0:ℚ), (-40:ℚ), (-90:ℚ)), ((400:ℚ), (-41:ℚ), (-90:ℚ))]).times =
      (retainedSamples [((0:ℚ), (-40:ℚ), (-90:ℚ)), ((400:ℚ), (-41:ℚ), (-90:ℚ))]
        (400:ℚ)).map (·.1) ∧
    (appendAll livedata_init [((0:ℚ), (-40:ℚ), (-90:ℚ)), ((400:ℚ), (-41:ℚ), (-90:ℚ))]).rssi =
      (retainedSamples [((0:ℚ), (-40:ℚ), (-90:ℚ)), ((400:ℚ), (-41:ℚ), (-90:ℚ))]
        (400:ℚ)).map (·.2.1) ∧
    (appendAll livedata_init [((0:ℚ), (-40:ℚ), (-90:ℚ)), ((400:ℚ), (-41:ℚ), (-90:ℚ))]).noise =
      (retainedSamples [((0:ℚ), (-40:ℚ), (-90:ℚ)), ((400:ℚ), (-41:ℚ), (-90:ℚ))]
        (400:ℚ)).map (·.2.2) ∧
    (appendAll livedata_init [((0:ℚ), (-40:ℚ), (-90:ℚ)), ((400:ℚ), (-41:ℚ), (-90:ℚ))]).snr =
      (retainedSamples [((0:ℚ), (-40:ℚ), (-90:ℚ)), ((400:ℚ), (-41:ℚ), (-90:ℚ))]
        (400:ℚ)).map (fun q => q.2.1 - q.2.2) ∧
    List.Chain' (· < ·)
      (appendAll livedata_init [((0:ℚ), (-40:ℚ), (-90:ℚ)), ((400:ℚ), (-41:ℚ), (-90:ℚ))]).times :=
  live_series_retention [(0, -40, -90), (400, -41, -90)] (400, -41, -90) rfl
    (by norm_num [List.chain'_cons])
